import Mathlib

/-!
Shallow embedding of `processor.go` from the parallel-csv repository.

Go byte strings are modelled as `List Char` (one `Char` per byte; all data
relevant to the claims is single-byte). Machine integers that can go
negative in Go (`int` configuration fields) are `Int`; loop counters and
sizes that the code keeps non-negative are `Nat`.

The producer loop of `Run` is modelled with explicit fuel: every iteration
either terminates or consumes at least one stream byte when the chunk size
is at least 1, so `stream length + 2` units of fuel always suffice; a fuel
exhaustion (possible only with chunk size 0, where the Go loop spins
forever) is flagged by the `diverged` field of the result.
-/

namespace ParallelCsv

/-- Go constant `LineBreak = "\n"` (the code always uses its single byte
`LineBreak[0]`). -/
def lineBreak : Char := '\n'

/-- Errors that flow through `Run`'s producer loop: Go's `io.EOF` and
`io.ErrUnexpectedEOF` sentinels, the library's `EmptyFileError`, and an
arbitrary other read failure returned by the underlying reader. -/
inductive GoError where
  | eof
  | unexpectedEOF
  | emptyFile
  | readFailure
deriving DecidableEq

/-- Go byte-size constant `KB = 1 << 10`. -/
def KB : Int := 2 ^ 10

/-- Go byte-size constant `MB = 1 << 20`. -/
def MB : Int := 2 ^ 20

/-- Go byte-size constant `GB = 1 << 30`. -/
def GB : Int := 2 ^ 30

/-- Go byte-size constant `TB = 1 << 40`. -/
def TB : Int := 2 ^ 40

/-- Go struct `HeaderConfig { HasHeader bool; Separator string }`. -/
structure HeaderConfig where
  hasHeader : Bool
  separator : List Char
deriving DecidableEq

/-- Go struct `Config { NumberOfWorkers int; HeaderConfig; BytesPerWorker int }`. -/
structure Config where
  numberOfWorkers : Int
  headerConfig : HeaderConfig
  bytesPerWorker : Int
deriving DecidableEq

/-- Go `GetDefaultConfig()`: 8 workers, header enabled with separator ",",
10 MB chunk size. -/
def getDefaultConfig : Config :=
  { numberOfWorkers := 8
  , headerConfig := { hasHeader := true, separator := [','] }
  , bytesPerWorker := 10 * MB }

/-- Boolean test that `pat` is a leading segment of `s` (Go
`strings.Index` uses this byte-wise comparison at each offset). -/
def startsWith : List Char → List Char → Bool
  | [], _ => true
  | _ :: _, [] => false
  | a :: pat, b :: s => a = b && startsWith pat s

/-- First offset at which `pat` occurs inside `s` (Go `strings.Index`):
`none` when there is no occurrence. -/
def findSub (pat : List Char) : List Char → Option Nat
  | [] => if startsWith pat [] then some 0 else none
  | c :: t =>
      if startsWith pat (c :: t) then some 0
      else (findSub pat t).map (fun i => i + 1)

/-- Worker of Go `strings.Split` for a non-empty separator (`genSplit`):
repeatedly cut at the first occurrence of `sep`. The fuel argument bounds
the recursion; `sep.length` many bytes are consumed per cut, so fuel equal
to the length of the subject suffices for any non-empty `sep`. -/
def splitGo : Nat → List Char → List Char → List (List Char)
  | 0, _, s => [s]
  | fuel + 1, sep, s =>
      match findSub sep s with
      | none => [s]
      | some i => s.take i :: splitGo fuel sep (s.drop (i + sep.length))

/-- Go `strings.Split(s, sep)`: for an empty separator Go explodes the
string into its characters; otherwise it cuts at each occurrence of
`sep`. -/
def goSplit (sep s : List Char) : List (List Char) :=
  if sep = [] then s.map (fun c => [c]) else splitGo s.length sep s

/-- Number of non-overlapping occurrences of `sep` in `s`, counted exactly
as `splitGo` cuts (spec-side measuring definition for the claim that a
first line with n separator occurrences yields n+1 header fields). -/
def countOccGo : Nat → List Char → List Char → Nat
  | 0, _, _ => 0
  | fuel + 1, sep, s =>
      match findSub sep s with
      | none => 0
      | some i => countOccGo fuel sep (s.drop (i + sep.length)) + 1

/-- Non-overlapping occurrence count of a non-empty `sep` in `s`. -/
def countOcc (sep s : List Char) : Nat := countOccGo s.length sep s

/-- Go `bufio.Reader.ReadString(delim)` as used by `parseHeader`: returns
the bytes up to and including the first `delim` together with the rest of
the stream, or `none` when the stream ends before a `delim` (Go then
returns the partial data with a non-nil error, and `parseHeader` discards
the data). -/
def readString (delim : Char) : List Char → Option (List Char × List Char)
  | [] => none
  | c :: t =>
      if c = delim then some ([c], t)
      else
        match readString delim t with
        | none => none
        | some (line, rest) => some (c :: line, rest)

/-- Go `(*processor).parseHeader`: read the first line through its break
with `ReadString(LineBreak[0])`; on any read error report failure
(`HeaderNotFoundError`), otherwise store
`strings.Split(line[:len(line)-1], separator)` and leave the cursor on the
rest of the stream. -/
def parseHeader (sep : List Char) (s : List Char) :
    Option (List (List Char) × List Char) :=
  match readString lineBreak s with
  | none => none
  | some (line, rest) => some (goSplit sep line.dropLast, rest)

/-- Outcome of Go `NewProcessor`: either a processor value (its resolved
config, stored header and the stream cursor position after optional header
consumption), or one of the two construction panics. -/
inductive NewProcResult where
  | ok (cfg : Config) (header : List (List Char)) (rest : List Char)
  | panicHeaderNotFound
  | panicInvalidReader
deriving DecidableEq

/-- Config resolution in `NewProcessor`: `nil` means the default config,
any supplied config is taken as is. -/
def resolveConfig : Option Config → Config
  | none => getDefaultConfig
  | some c => c

/-- Go `NewProcessor(reader, config)`: panic on a nil reader; resolve the
config; when header mode is on, run `parseHeader` and panic with
`HeaderNotFoundError` on its failure; otherwise the header stays empty and
the cursor is untouched. No field of the config is validated. -/
def newProcessor (reader : Option (List Char)) (config : Option Config) :
    NewProcResult :=
  match reader with
  | none => .panicInvalidReader
  | some s =>
      let cfg := resolveConfig config
      if cfg.headerConfig.hasHeader then
        match parseHeader cfg.headerConfig.separator s with
        | none => .panicHeaderNotFound
        | some (h, rest) => .ok cfg h rest
      else .ok cfg [] s

/-- The byte stream feeding `Run`'s producer loop: its data, plus whether
the underlying reader reports a non-EOF read error (instead of `io.EOF`)
once the data is exhausted. -/
structure Reader where
  data : List Char
  failAfter : Bool
deriving DecidableEq

/-- Effect of `io.ReadFull(p.reader, buffer[:cap(buffer)])` followed by
`buffer = buffer[:n]` on the observable buffer contents: `ReadFull` writes
the `n = min cap remaining` fresh stream bytes at offsets `0 .. n-1`,
overwriting the old contents there, and the reslice cuts everything from
offset `n` on. -/
def fillBuffer (cap : Nat) (old fresh : List Char) : List Char :=
  let n := min cap fresh.length
  (fresh.take n ++ old.drop n).take n

/-- Error result of `io.ReadFull` on a buffer of capacity `cap` when `n`
bytes could be read: `nil` when the buffer was filled completely,
otherwise the reader's terminal error as `io.ReadAtLeast` reports it
(`io.EOF` when nothing was read, `io.ErrUnexpectedEOF` when the stream
ended after a partial read, the reader's own error otherwise). -/
def readFullErr (cap : Nat) (r : Reader) (n : Nat) : Option GoError :=
  if n = cap then none
  else if r.failAfter then some .readFailure
  else if n = 0 then some .eof
  else some .unexpectedEOF

/-- Go `bytes.LastIndexByte(buffer, LineBreak[0])` as an `Option`:
offset of the last line-break byte, `none` for Go's `-1`. -/
def lastBreak : List Char → Option Nat
  | [] => none
  | c :: t =>
      match lastBreak t with
      | some k => some (k + 1)
      | none => if c = lineBreak then some 0 else none

/-- Observable outcome of `Run`: the `rows` byte slices sent to the worker
channel in stream order, the successive observable buffer contents after
each fill (for tracing the carry behaviour), the returned error (`none`
for a nil return), whether the `close(p.blocks)` and `p.wg.Wait()`
statements were reached on the taken path, and whether the fuel ran out
(only possible with chunk capacity 0, where the Go loop never
terminates). -/
structure RunResult where
  chunks : List (List Char)
  trace : List (List Char)
  retErr : Option GoError
  closedQueue : Bool
  waitedWorkers : Bool
  diverged : Bool
deriving DecidableEq

/-- One-per-iteration translation of the producer loop of `Run`
(lines 145-176 of processor.go), with `pos` the number of stream bytes
already consumed, `tot` the running byte total, `buf` the observable
buffer contents, `chunks` the rows slices emitted so far and `trace` the
buffer contents seen so far. Order of operations per iteration follows the
source: fill the buffer, add to `tot`, reslice, check the error (EOF with
`tot = 0` returns `EmptyFileError`; EOF otherwise breaks to the
close/wait epilogue; any error other than `io.ErrUnexpectedEOF` is
returned immediately, skipping close and wait), then emit `buffer[:k]`
for `k` the last break offset and keep `buffer[k:]` as the new buffer. -/
def runLoop (cap : Nat) (r : Reader) :
    Nat → Nat → Nat → List Char → List (List Char) → List (List Char) →
    RunResult
  | 0, _, _, _, chunks, trace =>
      { chunks := chunks, trace := trace, retErr := none
      , closedQueue := false, waitedWorkers := false, diverged := true }
  | fuel + 1, pos, tot, buf, chunks, trace =>
      let fresh := r.data.drop pos
      let n := min cap fresh.length
      let tot2 := tot + n
      let buf2 := fillBuffer cap buf fresh
      let trace2 := trace ++ [buf2]
      match readFullErr cap r n with
      | some GoError.eof =>
          if tot2 = 0 then
            { chunks := chunks, trace := trace2, retErr := some .emptyFile
            , closedQueue := false, waitedWorkers := false, diverged := false }
          else
            { chunks := chunks, trace := trace2, retErr := none
            , closedQueue := true, waitedWorkers := true, diverged := false }
      | some GoError.unexpectedEOF =>
          match lastBreak buf2 with
          | none => runLoop cap r fuel (pos + n) tot2 buf2 chunks trace2
          | some k =>
              runLoop cap r fuel (pos + n) tot2 (buf2.drop k)
                (chunks ++ [buf2.take k]) trace2
      | some e =>
          { chunks := chunks, trace := trace2, retErr := some e
          , closedQueue := false, waitedWorkers := false, diverged := false }
      | none =>
          match lastBreak buf2 with
          | none => runLoop cap r fuel (pos + n) tot2 buf2 chunks trace2
          | some k =>
              runLoop cap r fuel (pos + n) tot2 (buf2.drop k)
                (chunks ++ [buf2.take k]) trace2

/-- Go `(p processor).Run(job)` restricted to its observable effects:
start the producer loop with an empty buffer of the configured capacity,
`tot = 0`, and the stream cursor wherever construction left it. -/
def run (cap : Nat) (r : Reader) : RunResult :=
  runLoop cap r (r.data.length + 2) 0 0 [] [] []

/-- Full pipeline `NewProcessor` + `Run` on a clean stream: constructs the
processor (consuming the header line when header mode is on) and then runs
the producer loop on the remaining stream with the configured chunk
capacity. `none` models the construction panics. -/
def processorRun (reader : Option (List Char)) (config : Option Config) :
    Option (List (List Char) × RunResult) :=
  match newProcessor reader config with
  | .ok cfg h rest => some (h, run cfg.bytesPerWorker.toNat ⟨rest, false⟩)
  | _ => none

/-- Number of rows handed to the job across all worker invocations: each
chunk is decoded and split by the line break (`strings.Split(text,
LineBreak)` in the worker body), and the job receives that list once. -/
def deliveredRows (res : RunResult) : Nat :=
  (res.chunks.map (fun c => (goSplit [lineBreak] c).length)).sum

/-- Spec-side measuring definition: the number of line-break-delimited
lines of a stream (a trailing break terminates the last line; a non-empty
tail without a break still counts as a line). -/
def specNumLines (s : List Char) : Nat :=
  if s = [] then 0
  else if s.getLast? = some lineBreak then s.count lineBreak
  else s.count lineBreak + 1

/-! Helper lemmas about the splitting primitives. -/

theorem startsWith_length_le :
    ∀ pat s : List Char, startsWith pat s = true → pat.length ≤ s.length := by
  intro pat
  induction pat with
  | nil => intro s _; simp
  | cons a pat ih =>
      intro s h
      cases s with
      | nil => simp [startsWith] at h
      | cons b t =>
          simp only [startsWith, Bool.and_eq_true] at h
          simpa using ih t h.2

theorem findSub_bound (pat : List Char) (hpat : pat ≠ []) :
    ∀ s i, findSub pat s = some i → i + pat.length ≤ s.length := by
  intro s
  induction s with
  | nil =>
      intro i h
      cases pat with
      | nil => exact absurd rfl hpat
      | cons a p => simp [findSub, startsWith] at h
  | cons c t ih =>
      intro i h
      by_cases hs : startsWith pat (c :: t) = true
      · have : i = 0 := by simp [findSub, hs] at h; omega
        subst this
        simpa using startsWith_length_le pat (c :: t) hs
      · simp only [findSub, hs, Bool.false_eq_true, if_false, Option.map_eq_some'] at h
        obtain ⟨j, hj, rfl⟩ := h
        have := ih j hj
        simp only [List.length_cons]
        omega

theorem splitGo_length :
    ∀ (fuel : Nat) (sep s : List Char),
      (splitGo fuel sep s).length = countOccGo fuel sep s + 1 := by
  intro fuel
  induction fuel with
  | zero => intro sep s; simp [splitGo, countOccGo]
  | succ fuel ih =>
      intro sep s
      simp only [splitGo, countOccGo]
      cases findSub sep s with
      | none => simp
      | some i => simp [ih]

/-- Go `strings.Split` with a non-empty separator always yields exactly
one more field than there are separator occurrences. -/
theorem goSplit_length (sep s : List Char) (hsep : sep ≠ []) :
    (goSplit sep s).length = countOcc sep s + 1 := by
  simp only [goSplit, hsep, if_false, countOcc]
  exact splitGo_length s.length sep s

/-- Splitting the empty string by a non-empty separator yields the
one-element list holding the empty string (Go `strings.Split("", sep)`). -/
theorem goSplit_nil (sep : List Char) (hsep : sep ≠ []) :
    goSplit sep [] = [[]] := by
  simp [goSplit, hsep, splitGo]

/-! Helper lemmas about `readString` and `parseHeader`. -/

theorem readString_none (delim : Char) :
    ∀ s : List Char, delim ∉ s → readString delim s = none := by
  intro s
  induction s with
  | nil => intro _; rfl
  | cons c t ih =>
      intro h
      have hc : ¬ c = delim := fun hc => h (hc ▸ List.mem_cons_self c t)
      have ht : delim ∉ t := fun ht => h (List.mem_cons_of_mem c ht)
      simp [readString, hc, ih ht]

theorem readString_found (delim : Char) (rest : List Char) :
    ∀ L : List Char, delim ∉ L →
      readString delim (L ++ delim :: rest) = some (L ++ [delim], rest) := by
  intro L
  induction L with
  | nil => intro _; simp [readString]
  | cons c t ih =>
      intro h
      have hc : ¬ c = delim := fun hc => h (hc ▸ List.mem_cons_self c t)
      have ht : delim ∉ t := fun ht => h (List.mem_cons_of_mem c ht)
      simp [readString, hc, ih ht]

/-- On a stream whose first line-break closes the prefix `L`,
`parseHeader` succeeds, stores `L` split by the separator, and leaves the
cursor exactly past the break. -/
theorem parseHeader_found (sep L rest : List Char) (hL : lineBreak ∉ L) :
    parseHeader sep (L ++ lineBreak :: rest) = some (goSplit sep L, rest) := by
  simp [parseHeader, readString_found lineBreak rest L hL]

theorem parseHeader_none (sep s : List Char) (hs : lineBreak ∉ s) :
    parseHeader sep s = none := by
  simp [parseHeader, readString_none lineBreak s hs]

/-! Helper lemmas about the producer loop. -/

theorem readFullErr_ne_emptyFile (cap : Nat) (r : Reader) (n : Nat) :
    readFullErr cap r n ≠ some GoError.emptyFile := by
  unfold readFullErr
  split_ifs <;> simp

theorem readFullErr_ne_readFailure (cap : Nat) (r : Reader) (n : Nat)
    (hr : r.failAfter = false) :
    readFullErr cap r n ≠ some GoError.readFailure := by
  unfold readFullErr
  split_ifs with h1 h2 h3 <;> simp_all

/-- Once a byte has been read, or while unread stream bytes remain, the
producer loop can no longer return `EmptyFileError` (for a cleanly ending
reader with a positive chunk capacity). -/
theorem runLoop_ne_emptyFile (cap : Nat) (r : Reader)
    (hcap : 1 ≤ cap) (hr : r.failAfter = false) :
    ∀ (fuel pos tot : Nat) (buf : List Char) (chunks trace : List (List Char)),
      pos < r.data.length ∨ 0 < tot →
      (runLoop cap r fuel pos tot buf chunks trace).retErr ≠
        some GoError.emptyFile := by
  intro fuel
  induction fuel with
  | zero => intro pos tot buf chunks trace _; simp [runLoop]
  | succ fuel ih =>
      intro pos tot buf chunks trace hlive
      have htot2 : 0 < tot + min cap (r.data.drop pos).length := by
        rcases hlive with hpos | htot
        · have : 1 ≤ (r.data.drop pos).length := by
            simp only [List.length_drop]; omega
          omega
        · omega
      simp only [runLoop]
      split
      · split
        · omega
        · simp
      · split
        · exact ih _ _ _ _ _ (Or.inr htot2)
        · exact ih _ _ _ _ _ (Or.inr htot2)
      · next e heof huneof hfe =>
          cases e with
          | eof => exact absurd rfl heof
          | unexpectedEOF => exact absurd rfl huneof
          | emptyFile => exact absurd hfe (readFullErr_ne_emptyFile _ _ _)
          | readFailure => exact absurd hfe (readFullErr_ne_readFailure _ _ _ hr)
      · split
        · exact ih _ _ _ _ _ (Or.inr htot2)
        · exact ih _ _ _ _ _ (Or.inr htot2)

/-- When the cursor already sits at end-of-stream with a zero running
total, the next iteration of the producer loop returns `EmptyFileError`. -/
theorem runLoop_empty_eof (cap : Nat) (r : Reader)
    (hcap : 1 ≤ cap) (hr : r.failAfter = false)
    (fuel pos : Nat) (buf : List Char) (chunks trace : List (List Char))
    (hpos : r.data.length ≤ pos) :
    (runLoop cap r (fuel + 1) pos 0 buf chunks trace).retErr =
      some GoError.emptyFile := by
  have hdrop : r.data.drop pos = [] := List.drop_eq_nil_of_le hpos
  have hcapne : ¬ (0 = cap) := by omega
  simp [runLoop, hdrop, readFullErr, hcapne, hr]

/-! Claim theorems. -/

/-- C1. The claim states that with header mode disabled, the total number
of rows handed to the job equals the number of line-break-delimited lines
of the input. The code refutes it: on the one-byte stream "a" the run
completes without error but delivers zero rows — the unterminated final
line is dropped (it is never emitted, and the carried bytes are
overwritten by the next fill). -/
theorem c1_line_loss :
    deliveredRows (run 4 ⟨['a'], false⟩) = 0 ∧
    specNumLines ['a'] = 1 ∧
    (run 4 ⟨['a'], false⟩).retErr = none := by decide

/-- C2. The claim states that concatenating the raw bytes behind all
emitted chunks reproduces the input stream. The code refutes it: on the
stream "a\n" the only chunk emitted is "a" — the trailing break (kept in
the carried remainder) is never part of any chunk, so the concatenation
misses it. -/
theorem c2_concat_mismatch :
    (run 4 ⟨['a', lineBreak], false⟩).chunks = [['a']] ∧
    (run 4 ⟨['a', lineBreak], false⟩).chunks.flatten ≠ ['a', lineBreak] ∧
    (run 4 ⟨['a', lineBreak], false⟩).retErr = none := by decide

/-- C3. The claim states that at end-of-stream the buffered remainder is
emitted as a final chunk before the queue is closed. The code refutes it:
on the stream "a" the loop reaches EOF, closes the queue and returns nil
having emitted no chunk at all, although one unemitted byte remained. -/
theorem c3_no_final_chunk :
    (run 4 ⟨['a'], false⟩).retErr = none ∧
    (run 4 ⟨['a'], false⟩).closedQueue = true ∧
    (run 4 ⟨['a'], false⟩).chunks = [] := by decide

/-- C4. The claim states that the bytes from the last break onward are
carried forward as the prefix of the bytes considered at the next fill.
The code refutes it: on the stream "ab\ncd\n" with chunk capacity 4, the
first fill considers "ab\nc" and carries "\nc", but `io.ReadFull` writes
the next stream bytes at offset 0, so the second fill considers "d\n" —
the carried bytes are overwritten and the byte 'c' reaches no chunk. -/
theorem c4_carry_overwritten :
    (run 4 ⟨['a', 'b', lineBreak, 'c', 'd', lineBreak], false⟩).trace =
      [['a', 'b', lineBreak, 'c'], ['d', lineBreak], []] ∧
    startsWith [lineBreak, 'c'] ['d', lineBreak] = false ∧
    (run 4 ⟨['a', 'b', lineBreak, 'c', 'd', lineBreak], false⟩).chunks =
      [['a', 'b'], ['d']] := by decide

/-- C5. The claim states that on every error return of `Run` the queue
has been closed and the workers waited for. The code refutes it: both the
read-failure return and the `EmptyFileError` return leave the function
before `close(p.blocks)` and `p.wg.Wait()` are reached. -/
theorem c5_error_path_leak :
    (run 4 ⟨[], true⟩).retErr = some GoError.readFailure ∧
    (run 4 ⟨[], true⟩).closedQueue = false ∧
    (run 4 ⟨[], true⟩).waitedWorkers = false ∧
    (run 4 ⟨[], false⟩).retErr = some GoError.emptyFile ∧
    (run 4 ⟨[], false⟩).closedQueue = false ∧
    (run 4 ⟨[], false⟩).waitedWorkers = false := by decide

/-- C6. With header mode enabled and a first line `L` closed by a break,
construction followed by `Run` yields exactly `L` split by the configured
separator as the header, and the run operates on the stream strictly past
the first break — so the header line's occurrence is consumed by the
header extractor and never delivered to the job. -/
theorem c6_header_extraction (cfg : Config)
    (hH : cfg.headerConfig.hasHeader = true)
    (L rest : List Char) (hL : lineBreak ∉ L) :
    processorRun (some (L ++ lineBreak :: rest)) (some cfg) =
      some (goSplit cfg.headerConfig.separator L,
        run cfg.bytesPerWorker.toNat ⟨rest, false⟩) := by
  simp [processorRun, newProcessor, resolveConfig, hH,
    parseHeader_found cfg.headerConfig.separator L rest hL]

/-- Witness for C6 at the stream "a\nx" with separator ",". -/
theorem c6_header_extraction_witness :
    ((⟨2, ⟨true, [',']⟩, 4⟩ : Config).headerConfig.hasHeader = true) ∧
    lineBreak ∉ (['a'] : List Char) ∧
    processorRun (some (['a'] ++ lineBreak :: ['x']))
        (some ⟨2, ⟨true, [',']⟩, 4⟩) =
      some (goSplit [','] ['a'], run 4 ⟨['x'], false⟩) :=
  ⟨rfl, by decide,
    c6_header_extraction ⟨2, ⟨true, [',']⟩, 4⟩ rfl ['a'] ['x'] (by decide)⟩

/-- C7. With header mode enabled, a stream without any line-break byte
(the empty stream included) makes construction fail with
`HeaderNotFoundError`: `parseHeader` reports the failure and
`NewProcessor` panics, so no processor value is produced. -/
theorem c7_header_not_found (cfg : Config)
    (hH : cfg.headerConfig.hasHeader = true)
    (s : List Char) (hs : lineBreak ∉ s) :
    newProcessor (some s) (some cfg) = NewProcResult.panicHeaderNotFound := by
  simp [newProcessor, resolveConfig, hH,
    parseHeader_none cfg.headerConfig.separator s hs]

/-- Witness for C7 at the empty stream. -/
theorem c7_header_not_found_witness :
    ((⟨2, ⟨true, [',']⟩, 4⟩ : Config).headerConfig.hasHeader = true) ∧
    lineBreak ∉ ([] : List Char) ∧
    newProcessor (some []) (some ⟨2, ⟨true, [',']⟩, 4⟩) =
      NewProcResult.panicHeaderNotFound :=
  ⟨rfl, by decide, c7_header_not_found ⟨2, ⟨true, [',']⟩, 4⟩ rfl [] (by decide)⟩

/-- C8, counterexample. The claim states that a stream that contained
bytes — for example only a header line — does not yield
`EmptyFileError`. The code refutes it: on the two-byte stream "h\n" with
header mode enabled, the header consumes the whole stream, the producer
loop reads zero bytes, and `Run` returns `EmptyFileError`. -/
theorem c8_header_only_empty :
    processorRun (some ['h', lineBreak]) (some ⟨2, ⟨true, [',']⟩, 4⟩) =
      some ([['h']], run 4 ⟨[], false⟩) ∧
    (run 4 ⟨[], false⟩).retErr = some GoError.emptyFile ∧
    (['h', lineBreak] : List Char) ≠ [] := by decide

/-- C8, amended. `Run` returns `EmptyFileError` exactly when the producer
loop reads zero total bytes, i.e. when the stream remaining after the
optional header consumption is empty — regardless of how many bytes the
header consumed. -/
theorem c8_amended_empty_iff (cap : Nat) (hcap : 1 ≤ cap) (s : List Char) :
    (run cap ⟨s, false⟩).retErr = some GoError.emptyFile ↔ s = [] := by
  constructor
  · intro h
    by_contra hs
    have hlen : 0 < s.length := List.length_pos.mpr hs
    exact runLoop_ne_emptyFile cap ⟨s, false⟩ hcap rfl _ 0 0 [] [] []
      (Or.inl hlen) h
  · intro h
    subst h
    exact runLoop_empty_eof cap ⟨[], false⟩ hcap rfl _ 0 [] [] [] (by simp)

/-- Witness for the amended C8 at capacity 4 and the empty remainder. -/
theorem c8_amended_empty_iff_witness :
    1 ≤ 4 ∧
    ((run 4 ⟨[], false⟩).retErr = some GoError.emptyFile ↔
      ([] : List Char) = []) :=
  ⟨by decide, c8_amended_empty_iff 4 (by decide) []⟩

/-- C9, counterexample. The claim states that a configuration violating
worker count ≥ 1 or chunk byte size ≥ 1 is not accepted at construction.
The code refutes it: `NewProcessor` performs no validation, and a config
with zero workers and zero chunk bytes yields a processor carrying
exactly that config. -/
theorem c9_no_validation_counterexample :
    newProcessor (some ['a']) (some ⟨0, ⟨false, [',']⟩, 0⟩) =
      NewProcResult.ok ⟨0, ⟨false, [',']⟩, 0⟩ [] ['a'] ∧
    ¬ (1 ≤ (⟨0, ⟨false, [',']⟩, 0⟩ : Config).numberOfWorkers ∧
        1 ≤ (⟨0, ⟨false, [',']⟩, 0⟩ : Config).bytesPerWorker) := by decide

/-- C9, amended. `NewProcessor` accepts any supplied configuration
unvalidated (returning a processor that carries it verbatim); the bounds
worker count ≥ 1 and chunk bytes ≥ 1 hold only for the default
configuration, which is applied exactly when no configuration is
supplied. -/
theorem c9_amended_no_validation :
    (∀ (cfg : Config) (s : List Char), cfg.headerConfig.hasHeader = false →
        newProcessor (some s) (some cfg) = NewProcResult.ok cfg [] s) ∧
    1 ≤ getDefaultConfig.numberOfWorkers ∧
    1 ≤ getDefaultConfig.bytesPerWorker ∧
    resolveConfig none = getDefaultConfig := by
  refine ⟨fun cfg s h => ?_, by decide, by decide, rfl⟩
  simp [newProcessor, resolveConfig, h]

/-- Witness for the amended C9 at a zero-worker, zero-byte config. -/
theorem c9_amended_no_validation_witness :
    newProcessor (some ['a']) (some ⟨0, ⟨false, [',']⟩, 0⟩) =
      NewProcResult.ok ⟨0, ⟨false, [',']⟩, 0⟩ [] ['a'] :=
  c9_amended_no_validation.1 ⟨0, ⟨false, [',']⟩, 0⟩ ['a'] rfl

/-- C10. With header mode enabled, a non-empty separator and a first line
`L` closed by a break, construction succeeds with header `L` split by the
separator; the header has exactly one more field than there are separator
occurrences in `L`; and the split of the empty first line is the
one-element sequence holding the empty string (so a stream starting with
a lone line break yields header `[""]`, not `[]`). -/
theorem c10_empty_first_line_fields (cfg : Config)
    (hH : cfg.headerConfig.hasHeader = true)
    (hsep : cfg.headerConfig.separator ≠ [])
    (L rest : List Char) (hL : lineBreak ∉ L) :
    newProcessor (some (L ++ lineBreak :: rest)) (some cfg) =
      NewProcResult.ok cfg (goSplit cfg.headerConfig.separator L) rest ∧
    (goSplit cfg.headerConfig.separator L).length =
      countOcc cfg.headerConfig.separator L + 1 ∧
    goSplit cfg.headerConfig.separator [] = [[]] := by
  refine ⟨?_, goSplit_length _ L hsep, goSplit_nil _ hsep⟩
  simp [newProcessor, resolveConfig, hH,
    parseHeader_found cfg.headerConfig.separator L rest hL]

/-- Witness for C10 at the stream "\nx" (empty first line). -/
theorem c10_empty_first_line_fields_witness :
    ((⟨2, ⟨true, [',']⟩, 4⟩ : Config).headerConfig.hasHeader = true) ∧
    ((⟨2, ⟨true, [',']⟩, 4⟩ : Config).headerConfig.separator ≠ []) ∧
    lineBreak ∉ ([] : List Char) ∧
    (newProcessor (some ([] ++ lineBreak :: ['x']))
        (some ⟨2, ⟨true, [',']⟩, 4⟩) =
      NewProcResult.ok ⟨2, ⟨true, [',']⟩, 4⟩ (goSplit [','] []) ['x'] ∧
    (goSplit [','] []).length = countOcc [','] [] + 1 ∧
    goSplit [','] [] = [[]]) :=
  ⟨rfl, by decide, by decide,
    c10_empty_first_line_fields ⟨2, ⟨true, [',']⟩, 4⟩ rfl (by decide)
      [] ['x'] (by decide)⟩

end ParallelCsv
